import Mathlib

/-!
Verification of the XACML PDP/PEP authorization engine
(`xacml_pdp.py`, `xacml_pep.py` of the three-tier file-storage service).

The policy document is an XML tree walked with `ElementTree` operations
(`find`, `findall`, attribute `get`, `.text`, `len`); we embed it as a
generic `Element` tree with the same operations.  Python exceptions raised
during evaluation (e.g. `category.lower()` on a missing `Category`
attribute, or a substring test on a missing `FunctionId`) are modelled as
`Except.error`; the top-level `evaluate` catches them, as the source's
`try`/`except` does.
-/

/-- An XML element as seen through the `ElementTree` operations the PDP
uses: a tag, an attribute list, optional text content, and child elements.
Namespace resolution (`xacml:` prefixes) is treated as part of the tag. -/
inductive Element : Type where
  | mk (tag : String) (attrs : List (String × String)) (text : Option String)
       (children : List Element)

namespace Element

/-- Tag of an element. -/
def tag : Element → String
  | mk t _ _ _ => t

/-- Attribute list of an element. -/
def attrs : Element → List (String × String)
  | mk _ a _ _ => a

/-- Text content of an element (`elem.text`; `none` for an empty element). -/
def text : Element → Option String
  | mk _ _ tx _ => tx

/-- Child elements (`list(elem)`). -/
def children : Element → List Element
  | mk _ _ _ c => c

/-- Attribute lookup, `elem.get(name)`. -/
def get (e : Element) (name : String) : Option String :=
  e.attrs.lookup name

/-- First direct child with the given tag, `elem.find('xacml:tag')`. -/
def findChild (e : Element) (t : String) : Option Element :=
  e.children.find? (fun c => c.tag == t)

/-- All direct children with the given tag, `elem.findall('xacml:tag')`. -/
def findallChild (e : Element) (t : String) : List Element :=
  e.children.filter (fun c => c.tag == t)

end Element

mutual

/-- All proper descendants with the given tag in document order,
`elem.findall('.//xacml:tag')`. -/
def findallDescE (t : String) : Element → List Element
  | .mk _ _ _ cs => findallDescL t cs

/-- Descendant search over a list of sibling elements: each sibling itself
(when its tag matches) followed by its descendants, in document order. -/
def findallDescL (t : String) : List Element → List Element
  | [] => []
  | c :: cs => (if c.tag == t then [c] else []) ++ findallDescE t c ++ findallDescL t cs

end

/-- Character-list version of `String.startsWith`. -/
def listStartsWith : List Char → List Char → Bool
  | _, [] => true
  | [], _ :: _ => false
  | a :: as, b :: bs => a == b && listStartsWith as bs

/-- Character-list substring test. -/
def listContainsSub (needle : List Char) : List Char → Bool
  | [] => listStartsWith [] needle
  | h :: t => listStartsWith (h :: t) needle || listContainsSub needle t

/-- Substring test, Python's `needle in hay`. -/
def strContains (hay needle : String) : Bool :=
  listContainsSub needle.toList hay.toList

/-- ASCII lowercase of one character (what `str.lower()` does on the ASCII
category strings the PDP compares). -/
def lowerChar (c : Char) : Char :=
  if 'A' ≤ c && c ≤ 'Z' then Char.ofNat (c.toNat + 32) else c

/-- ASCII lowercase of a string, Python's `category.lower()`. -/
def pyLower (s : String) : String :=
  String.mk (s.data.map lowerChar)

/-- XACML decision types (`class Decision(Enum)`). -/
inductive Decision : Type where
  | PERMIT
  | DENY
  | NOT_APPLICABLE
  | INDETERMINATE
deriving DecidableEq, Repr

/-- An XACML authorization request: subject and resource attribute maps, an
action string, and an environment map (never read by evaluation). -/
structure XACMLRequest : Type where
  subject : List (String × String)
  resource : List (String × String)
  action : String
  environment : List (String × String) := []
deriving DecidableEq, Repr

/-- Dictionary lookup through a possibly-absent key: `d.get(k)` where `k`
may be Python `None` (string-keyed dicts hold no `None` key). -/
def lookupOpt (m : List (String × String)) (k : Option String) : Option String :=
  match k with
  | none => none
  | some key => m.lookup key

/-- Subject attribute lookup, `XACMLRequest.get_subject_attribute`. -/
def XACMLRequest.get_subject_attribute (r : XACMLRequest) (k : Option String) : Option String :=
  lookupOpt r.subject k

/-- Resource attribute lookup, `XACMLRequest.get_resource_attribute`. -/
def XACMLRequest.get_resource_attribute (r : XACMLRequest) (k : Option String) : Option String :=
  lookupOpt r.resource k

/-- An XACML authorization response (`class XACMLResponse`). -/
structure XACMLResponse : Type where
  decision : Decision
  status : String := "OK"
  obligations : List String := []
  advice : List String := []
deriving DecidableEq, Repr

/-- Permit check, `XACMLResponse.is_permitted`. -/
def XACMLResponse.is_permitted (r : XACMLResponse) : Bool :=
  r.decision == Decision.PERMIT

deriving instance DecidableEq for Except

/-- Attribute resolution as inlined in `_evaluate_match` (branch order
subject, action, resource; the action category only answers for the
attribute id `action`; any other category yields no value). -/
def matchCategoryResolve (category : String) (attr_id : Option String)
    (request : XACMLRequest) : Option String :=
  if strContains (pyLower category) "subject" then
    request.get_subject_attribute attr_id
  else if strContains (pyLower category) "action" then
    (if attr_id == some "action" then some request.action else none)
  else if strContains (pyLower category) "resource" then
    request.get_resource_attribute attr_id
  else none

/-- Single `Match` evaluation, `PolicyDecisionPoint._evaluate_match`.  A
missing `AttributeValue` or `AttributeDesignator` child yields `false`; a
designator without a `Category` attribute raises (`category.lower()` on
`None`); otherwise the resolved value is compared with the literal's text
as Python optionals (`actual_value == expected_value`). -/
def _evaluate_match (m : Element) (request : XACMLRequest) : Except String Bool :=
  match m.findChild "AttributeValue" with
  | none => Except.ok false
  | some attr_value_elem =>
    match m.findChild "AttributeDesignator" with
    | none => Except.ok false
    | some attr_designator =>
      match attr_designator.get "Category" with
      | none => Except.error "AttributeError: NoneType object has no attribute"
      | some category =>
        Except.ok
          (matchCategoryResolve category (attr_designator.get "AttributeId") request
            == attr_value_elem.text)

/-- Loop body of `PolicyDecisionPoint._match_all_of`: every `Match` child
must evaluate true, with short-circuit on the first false. -/
def _match_all_of_loop (request : XACMLRequest) : List Element → Except String Bool
  | [] => Except.ok true
  | m :: ms =>
    match _evaluate_match m request with
    | Except.error e => Except.error e
    | Except.ok b => if b then _match_all_of_loop request ms else Except.ok false

/-- `PolicyDecisionPoint._match_all_of`. -/
def _match_all_of (all_of : Element) (request : XACMLRequest) : Except String Bool :=
  _match_all_of_loop request (all_of.findallChild "Match")

/-- Inner loop of `PolicyDecisionPoint._match_target` over the `AllOf`
children of one `AnyOf` group: true on the first fully-matching group. -/
def _allof_loop (request : XACMLRequest) : List Element → Except String Bool
  | [] => Except.ok false
  | a :: as =>
    match _match_all_of a request with
    | Except.error e => Except.error e
    | Except.ok b => if b then Except.ok true else _allof_loop request as

/-- Outer loop of `PolicyDecisionPoint._match_target` over `AnyOf`
children. -/
def _anyof_loop (request : XACMLRequest) : List Element → Except String Bool
  | [] => Except.ok false
  | an :: ans =>
    match _allof_loop request (an.findallChild "AllOf") with
    | Except.error e => Except.error e
    | Except.ok b => if b then Except.ok true else _anyof_loop request ans

/-- `PolicyDecisionPoint._match_target`: a target with no child elements
matches everything; otherwise some `AllOf` group inside some `AnyOf` group
must fully match. -/
def _match_target (target : Element) (request : XACMLRequest) : Except String Bool :=
  if target.children.length == 0 then Except.ok true
  else _anyof_loop request (target.findallChild "AnyOf")

/-- `PolicyDecisionPoint._get_attribute_value` (branch order subject,
resource, action).  A `None` category raises (`category.lower()`). -/
def _get_attribute_value (attr_id : Option String) (category : Option String)
    (request : XACMLRequest) : Except String (Option String) :=
  match category with
  | none => Except.error "AttributeError: NoneType object has no attribute"
  | some cat =>
    if strContains (pyLower cat) "subject" then
      Except.ok (request.get_subject_attribute attr_id)
    else if strContains (pyLower cat) "resource" then
      Except.ok (request.get_resource_attribute attr_id)
    else if strContains (pyLower cat) "action" then
      Except.ok (if attr_id == some "action" then some request.action else none)
    else Except.ok none

mutual

/-- `PolicyDecisionPoint._evaluate_apply`.  Dispatch is by substring test
on the `FunctionId` attribute, in source order: `string-equal`, then
`function:not`, then `function:or`; anything else is false.  A missing
`FunctionId` raises (`in` on `None`). -/
def _evaluate_apply (request : XACMLRequest) : Element → Except String Bool
  | .mk _ ats _ children =>
    match ats.lookup "FunctionId" with
    | none => Except.error "TypeError: argument of type NoneType is not iterable"
    | some function_id =>
      if strContains function_id "string-equal" then
        match findallDescL "AttributeDesignator" children with
        | d0 :: d1 :: _ =>
          (match _get_attribute_value (d0.get "AttributeId") (d0.get "Category") request with
           | Except.error e => Except.error e
           | Except.ok val1 =>
             match _get_attribute_value (d1.get "AttributeId") (d1.get "Category") request with
             | Except.error e => Except.error e
             | Except.ok val2 => Except.ok (val1.isSome && val1 == val2))
        | _ => Except.ok false
      else if strContains function_id "function:not" then
        _apply_not request children
      else if strContains function_id "function:or" then
        _apply_or request children
      else
        Except.ok false

/-- `function:not` branch: negate the first direct `Apply` child
(`apply.find('xacml:Apply')`); false when there is none (the source falls
through to its final `return False`). -/
def _apply_not (request : XACMLRequest) : List Element → Except String Bool
  | [] => Except.ok false
  | c :: cs =>
    if c.tag == "Apply" then
      match _evaluate_apply request c with
      | Except.error e => Except.error e
      | Except.ok b => Except.ok (!b)
    else _apply_not request cs

/-- `function:or` branch: true on the first direct `Apply` child that
evaluates true, false when none does (or there are none). -/
def _apply_or (request : XACMLRequest) : List Element → Except String Bool
  | [] => Except.ok false
  | c :: cs =>
    if c.tag == "Apply" then
      match _evaluate_apply request c with
      | Except.error e => Except.error e
      | Except.ok b => if b then Except.ok true else _apply_or request cs
    else _apply_or request cs

end

/-- `PolicyDecisionPoint._evaluate_condition`: vacuously true when the
condition wraps no `Apply` element. -/
def _evaluate_condition (condition : Element) (request : XACMLRequest) : Except String Bool :=
  match condition.findChild "Apply" with
  | none => Except.ok true
  | some a => _evaluate_apply request a

/-- Effect decoding at the end of `_evaluate_rule`: `Permit` for the
attribute value `"Permit"`, `Deny` for anything else (including a missing
`Effect` attribute). -/
def ruleEffect (effect : Option String) : Decision :=
  if effect == some "Permit" then Decision.PERMIT else Decision.DENY

/-- Condition step of `PolicyDecisionPoint._evaluate_rule`: NotApplicable
when a present condition evaluates false, else the rule's effect. -/
def ruleCondStep (rule : Element) (request : XACMLRequest) (effect : Option String) :
    Except String Decision :=
  match rule.findChild "Condition" with
  | some condition =>
    (match _evaluate_condition condition request with
     | Except.error e => Except.error e
     | Except.ok b => if b then Except.ok (ruleEffect effect) else Except.ok Decision.NOT_APPLICABLE)
  | none => Except.ok (ruleEffect effect)

/-- `PolicyDecisionPoint._evaluate_rule`. -/
def _evaluate_rule (rule : Element) (request : XACMLRequest) : Except String Decision :=
  match rule.findChild "Target" with
  | some target =>
    (match _match_target target request with
     | Except.error e => Except.error e
     | Except.ok b =>
       if b then ruleCondStep rule request (rule.get "Effect")
       else Except.ok Decision.NOT_APPLICABLE)
  | none => ruleCondStep rule request (rule.get "Effect")

/-- Rule loop of `PolicyDecisionPoint._evaluate_policy` (deny-overrides
with short-circuit, tracking whether any rule permitted). -/
def rulesLoop (request : XACMLRequest) : List Element → Bool → Except String Decision
  | [], anyPermit => Except.ok (if anyPermit then Decision.PERMIT else Decision.NOT_APPLICABLE)
  | r :: rs, anyPermit =>
    match _evaluate_rule r request with
    | Except.error e => Except.error e
    | Except.ok d =>
      if d == Decision.DENY then Except.ok Decision.DENY
      else rulesLoop request rs (anyPermit || d == Decision.PERMIT)

/-- Rule part of `PolicyDecisionPoint._evaluate_policy`: NotApplicable for
a policy with no `Rule` descendants, else the deny-overrides rule loop. -/
def policyRules (policy : Element) (request : XACMLRequest) : Except String Decision :=
  let rules := findallDescE "Rule" policy
  if rules.isEmpty then Except.ok Decision.NOT_APPLICABLE
  else rulesLoop request rules false

/-- `PolicyDecisionPoint._evaluate_policy`. -/
def _evaluate_policy (policy : Element) (request : XACMLRequest) : Except String Decision :=
  match policy.findChild "Target" with
  | some target =>
    (match _match_target target request with
     | Except.error e => Except.error e
     | Except.ok b =>
       if b then policyRules policy request
       else Except.ok Decision.NOT_APPLICABLE)
  | none => policyRules policy request

/-- Policy loop of `PolicyDecisionPoint.evaluate` (deny-overrides across
policies, short-circuiting on the first Deny). -/
def policiesLoop (request : XACMLRequest) : List Element → Bool → Except String XACMLResponse
  | [], anyPermit =>
    Except.ok
      { decision := if anyPermit then Decision.PERMIT else Decision.NOT_APPLICABLE }
  | p :: ps, anyPermit =>
    match _evaluate_policy p request with
    | Except.error e => Except.error e
    | Except.ok d =>
      if d == Decision.DENY then
        Except.ok { decision := Decision.DENY, status := "Access denied by policy" }
      else policiesLoop request ps (anyPermit || d == Decision.PERMIT)

/-- Body of `PolicyDecisionPoint.evaluate` inside its `try` block. -/
def evaluateE (policy_root : Element) (request : XACMLRequest) :
    Except String XACMLResponse :=
  let policies := findallDescE "Policy" policy_root
  if policies.isEmpty then
    Except.ok { decision := Decision.NOT_APPLICABLE, status := "No policies found" }
  else policiesLoop request policies false

/-- `PolicyDecisionPoint.evaluate`: the `except` clause converts any raised
error into an `Indeterminate` response with a descriptive status. -/
def evaluate (policy_root : Element) (request : XACMLRequest) : XACMLResponse :=
  match evaluateE policy_root request with
  | Except.ok r => r
  | Except.error e => { decision := Decision.INDETERMINATE, status := "Error: " ++ e }

/-- Request construction of `check_authorization`: the subject map always
holds exactly the username and role; `resource-owner` and `target-role`
are inserted only when the corresponding argument is truthy (neither
`None` nor the empty string). -/
def ca_request (username role action : String)
    (resource_owner target_role : Option String) : XACMLRequest :=
  { subject := [("username", username), ("role", role)]
    resource :=
      (match resource_owner with
       | some ro => if ro == "" then [] else [("resource-owner", ro)]
       | none => []) ++
      (match target_role with
       | some tr => if tr == "" then [] else [("target-role", tr)]
       | none => [])
    action := action
    environment := [] }

/-- `check_authorization` (the singleton-loaded policy tree is passed as
`policy_root`). -/
def check_authorization (policy_root : Element) (username role action : String)
    (resource_owner : Option String := none) (target_role : Option String := none) : Bool :=
  (evaluate policy_root (ca_request username role action resource_owner target_role)).is_permitted

/-- State visible to the PEP wrapper in `enforce_xacml`: the authenticated
caller returned by `authenticate_user`, the handler's bound keyword
arguments, and the `user` query parameter (`request.args.get('user')`). -/
structure PEPContext : Type where
  username : String
  role : String
  kwargs : List (String × String)
  args_user : Option String

/-- Resource-owner resolution of `enforce_xacml`: when a resource-owner
parameter name is declared (truthy), take the bound keyword argument if
the key is present (even if its value is the empty string), else the
`user` query parameter; when still `None`, default to the authenticated
username. -/
def pep_resource_owner (resource_owner_param : Option String)
    (kwargs : List (String × String)) (args_user : Option String)
    (username : String) : String :=
  let ro : Option String :=
    match resource_owner_param with
    | some p =>
      if p == "" then none
      else
        (match kwargs.lookup p with
         | some v => some v
         | none => args_user)
    | none => none
  match ro with
  | some v => v
  | none => username

/-- Target-role resolution of `enforce_xacml`: the bound keyword argument
when a target-role parameter name is declared, else `None`. -/
def pep_target_role (target_role_param : Option String)
    (kwargs : List (String × String)) : Option String :=
  match target_role_param with
  | some p => if p == "" then none else kwargs.lookup p
  | none => none

/-- Outcome of the PEP wrapper: either the request is aborted with 403
before the handler runs, or the handler's result is produced. -/
inductive PEPOutcome (α : Type) : Type where
  | denied
  | executed (result : α)
deriving DecidableEq, Repr

/-- The `enforce_xacml` decorator's wrapper: resolve the resource owner and
target role, call `check_authorization`, and either abort with 403
(`denied`) or run the protected handler. -/
def enforce_xacml {α : Type} (policy_root : Element) (action : String)
    (resource_owner_param target_role_param : Option String)
    (ctx : PEPContext) (handler : Unit → α) : PEPOutcome α :=
  let resource_owner :=
    pep_resource_owner resource_owner_param ctx.kwargs ctx.args_user ctx.username
  let target_role := pep_target_role target_role_param ctx.kwargs
  if check_authorization policy_root ctx.username ctx.role action
      (some resource_owner) target_role then
    PEPOutcome.executed (handler ())
  else PEPOutcome.denied

/-- Resource-owner resolution as the specification words it (step 2 of the
PEP guard contract): the declared parameter's bound value when it is
non-empty, else the operation-level `user` query override, else the
authenticated username.  Kept for comparison with `pep_resource_owner`,
the resolution the code performs. -/
def specC9_resource_owner (resource_owner_param : Option String)
    (kwargs : List (String × String)) (args_user : Option String)
    (username : String) : String :=
  let fromParam : Option String :=
    match resource_owner_param with
    | some p =>
      (match kwargs.lookup p with
       | some v => if v == "" then none else some v
       | none => none)
    | none => none
  match fromParam with
  | some v => v
  | none =>
    match args_user with
    | some q => q
    | none => username

/-! Section: concrete fixtures used by witnesses -/

/-- A permit rule with empty target and no condition. -/
def w1RulePermit : Element :=
  Element.mk "Rule" [("RuleId", "r1"), ("Effect", "Permit")] none []

/-- A deny rule with empty target and no condition. -/
def w1RuleDeny : Element :=
  Element.mk "Rule" [("RuleId", "r2"), ("Effect", "Deny")] none []

/-- A policy holding one permit rule and one deny rule. -/
def w1Policy : Element :=
  Element.mk "Policy" [("PolicyId", "p1")] none [w1RulePermit, w1RuleDeny]

/-- A policy document holding the permit/deny policy. -/
def w1Root : Element := Element.mk "PolicySet" [] none [w1Policy]

/-- A simple request. -/
def w1Request : XACMLRequest :=
  XACMLRequest.mk [("username", "alice"), ("role", "user")] [] "list" []

/-- A `Match` of the subject role against the literal `"user"`. -/
def w3Match : Element :=
  Element.mk "Match" [] none
    [Element.mk "AttributeValue" [] (some "user") [],
     Element.mk "AttributeDesignator"
       [("AttributeId", "role"),
        ("Category", "urn:oasis:names:tc:xacml:1.0:subject-category:access-subject")]
       none []]

/-- An `AllOf` group holding the role match. -/
def w3AllOf : Element := Element.mk "AllOf" [] none [w3Match]

/-- An `AnyOf` group holding the `AllOf` group. -/
def w3AnyOf : Element := Element.mk "AnyOf" [] none [w3AllOf]

/-- A target holding one `AnyOf` group. -/
def w3Target : Element := Element.mk "Target" [] none [w3AnyOf]

/-! Section: general lemmas about the evaluation loops -/

/-- The `AllOf` match loop succeeds when every `Match` evaluation does, and
returns true exactly when all of them are true. -/
theorem match_all_of_loop_ok (request : XACMLRequest) (ms : List Element)
    (hok : ∀ m ∈ ms, ∃ b, _evaluate_match m request = Except.ok b) :
    ∃ b, _match_all_of_loop request ms = Except.ok b ∧
      (b = true ↔ ∀ m ∈ ms, _evaluate_match m request = Except.ok true) := by
  induction ms with
  | nil => exact ⟨true, rfl, by simp⟩
  | cons m ms ih =>
    obtain ⟨b0, hb0⟩ := hok m (List.mem_cons_self ..)
    obtain ⟨b, hb, hiff⟩ := ih (fun m' hm' => hok m' (List.mem_cons_of_mem _ hm'))
    cases b0 with
    | false =>
      refine ⟨false, by simp [_match_all_of_loop, hb0],
        iff_of_false (by simp) fun hall => ?_⟩
      have := hall m (List.mem_cons_self ..)
      rw [hb0] at this
      exact Bool.false_ne_true (Except.ok.inj this)
    | true =>
      refine ⟨b, by simp [_match_all_of_loop, hb0, hb], ?_⟩
      rw [List.forall_mem_cons, hiff]
      simp [hb0]

/-- The inner `AllOf` loop of target matching succeeds when every group
does, and returns true exactly when some group matches. -/
theorem allof_loop_ok (request : XACMLRequest) (as : List Element)
    (hok : ∀ a ∈ as, ∃ b, _match_all_of a request = Except.ok b) :
    ∃ b, _allof_loop request as = Except.ok b ∧
      (b = true ↔ ∃ a ∈ as, _match_all_of a request = Except.ok true) := by
  induction as with
  | nil => exact ⟨false, rfl, by simp⟩
  | cons a as ih =>
    obtain ⟨b0, hb0⟩ := hok a (List.mem_cons_self ..)
    obtain ⟨b, hb, hiff⟩ := ih (fun a' ha' => hok a' (List.mem_cons_of_mem _ ha'))
    cases b0 with
    | false =>
      refine ⟨b, by simp [_allof_loop, hb0, hb], ?_⟩
      rw [hiff]
      constructor
      · rintro ⟨x, hx, hxt⟩
        exact ⟨x, List.mem_cons_of_mem _ hx, hxt⟩
      · rintro ⟨x, hx, hxt⟩
        rcases List.mem_cons.mp hx with h | h
        · subst h; rw [hb0] at hxt; exact absurd (Except.ok.inj hxt) Bool.false_ne_true
        · exact ⟨x, h, hxt⟩
    | true =>
      exact ⟨true, by simp [_allof_loop, hb0],
        iff_of_true rfl ⟨a, List.mem_cons_self .., hb0⟩⟩

/-- The outer `AnyOf` loop of target matching succeeds when the inner loop
does for every group, and returns true exactly when some group's inner
loop does. -/
theorem anyof_loop_ok (request : XACMLRequest) (ans : List Element)
    (hok : ∀ an ∈ ans, ∃ b, _allof_loop request (an.findallChild "AllOf") = Except.ok b) :
    ∃ b, _anyof_loop request ans = Except.ok b ∧
      (b = true ↔ ∃ an ∈ ans,
        _allof_loop request (an.findallChild "AllOf") = Except.ok true) := by
  induction ans with
  | nil => exact ⟨false, rfl, by simp⟩
  | cons an ans ih =>
    obtain ⟨b0, hb0⟩ := hok an (List.mem_cons_self ..)
    obtain ⟨b, hb, hiff⟩ := ih (fun a' ha' => hok a' (List.mem_cons_of_mem _ ha'))
    cases b0 with
    | false =>
      refine ⟨b, by simp [_anyof_loop, hb0, hb], ?_⟩
      rw [hiff]
      constructor
      · rintro ⟨x, hx, hxt⟩
        exact ⟨x, List.mem_cons_of_mem _ hx, hxt⟩
      · rintro ⟨x, hx, hxt⟩
        rcases List.mem_cons.mp hx with h | h
        · subst h; rw [hb0] at hxt; exact absurd (Except.ok.inj hxt) Bool.false_ne_true
        · exact ⟨x, h, hxt⟩
    | true =>
      exact ⟨true, by simp [_anyof_loop, hb0],
        iff_of_true rfl ⟨an, List.mem_cons_self .., hb0⟩⟩

/-- A rule that denies short-circuits the rule loop unconditionally. -/
theorem rulesLoop_deny_head (request : XACMLRequest) (r : Element) (rs : List Element)
    (ap : Bool) (hd : _evaluate_rule r request = Except.ok Decision.DENY) :
    rulesLoop request (r :: rs) ap = Except.ok Decision.DENY := by
  simp [rulesLoop, hd]

/-- Deny-overrides across rules: when every rule evaluates without error
and some rule denies, the loop returns Deny. -/
theorem rulesLoop_deny (request : XACMLRequest) (rs : List Element) (ap : Bool)
    (hok : ∀ r ∈ rs, ∃ d, _evaluate_rule r request = Except.ok d)
    (hden : ∃ r ∈ rs, _evaluate_rule r request = Except.ok Decision.DENY) :
    rulesLoop request rs ap = Except.ok Decision.DENY := by
  induction rs generalizing ap with
  | nil => simp at hden
  | cons r rs ih =>
    obtain ⟨d0, hd0⟩ := hok r (List.mem_cons_self ..)
    by_cases hdd : d0 = Decision.DENY
    · subst hdd
      exact rulesLoop_deny_head request r rs ap hd0
    · have hloop : rulesLoop request (r :: rs) ap =
          rulesLoop request rs (ap || d0 == Decision.PERMIT) := by
        simp [rulesLoop, hd0, hdd]
      rw [hloop]
      refine ih _ (fun r' hr' => hok r' (List.mem_cons_of_mem _ hr')) ?_
      obtain ⟨x, hx, hxd⟩ := hden
      rcases List.mem_cons.mp hx with h | h
      · subst h
        rw [hd0] at hxd
        exact absurd (Except.ok.inj hxd) hdd
      · exact ⟨x, h, hxd⟩

/-- Without a denying rule, the rule loop returns Permit exactly when some
rule permitted (or a permit was already recorded), else NotApplicable. -/
theorem rulesLoop_no_deny (request : XACMLRequest) (rs : List Element) (ap : Bool)
    (hok : ∀ r ∈ rs, ∃ d, _evaluate_rule r request = Except.ok d)
    (hnd : ∀ r ∈ rs, _evaluate_rule r request ≠ Except.ok Decision.DENY) :
    rulesLoop request rs ap = Except.ok
      (if ap || rs.any (fun r => _evaluate_rule r request == Except.ok Decision.PERMIT)
       then Decision.PERMIT else Decision.NOT_APPLICABLE) := by
  induction rs generalizing ap with
  | nil => simp [rulesLoop]
  | cons r rs ih =>
    obtain ⟨d0, hd0⟩ := hok r (List.mem_cons_self ..)
    have hdd : d0 ≠ Decision.DENY := by
      intro h
      exact hnd r (List.mem_cons_self ..) (h ▸ hd0)
    have hloop : rulesLoop request (r :: rs) ap =
        rulesLoop request rs (ap || d0 == Decision.PERMIT) := by
      simp [rulesLoop, hd0, hdd]
    rw [hloop,
      ih _ (fun r' hr' => hok r' (List.mem_cons_of_mem _ hr'))
        (fun r' hr' => hnd r' (List.mem_cons_of_mem _ hr'))]
    simp [hd0, Bool.or_assoc]

/-- A policy that denies short-circuits the policy loop unconditionally. -/
theorem policiesLoop_deny_head (request : XACMLRequest) (p : Element) (ps : List Element)
    (ap : Bool) (hd : _evaluate_policy p request = Except.ok Decision.DENY) :
    policiesLoop request (p :: ps) ap =
      Except.ok { decision := Decision.DENY, status := "Access denied by policy" } := by
  simp [policiesLoop, hd]

/-- Deny-overrides across policies: when every policy evaluates without
error and some policy denies, the loop returns the Deny response. -/
theorem policiesLoop_deny (request : XACMLRequest) (ps : List Element) (ap : Bool)
    (hok : ∀ p ∈ ps, ∃ d, _evaluate_policy p request = Except.ok d)
    (hden : ∃ p ∈ ps, _evaluate_policy p request = Except.ok Decision.DENY) :
    policiesLoop request ps ap =
      Except.ok { decision := Decision.DENY, status := "Access denied by policy" } := by
  induction ps generalizing ap with
  | nil => simp at hden
  | cons p ps ih =>
    obtain ⟨d0, hd0⟩ := hok p (List.mem_cons_self ..)
    by_cases hdd : d0 = Decision.DENY
    · subst hdd
      exact policiesLoop_deny_head request p ps ap hd0
    · have hloop : policiesLoop request (p :: ps) ap =
          policiesLoop request ps (ap || d0 == Decision.PERMIT) := by
        simp [policiesLoop, hd0, hdd]
      rw [hloop]
      refine ih _ (fun p' hp' => hok p' (List.mem_cons_of_mem _ hp')) ?_
      obtain ⟨x, hx, hxd⟩ := hden
      rcases List.mem_cons.mp hx with h | h
      · subst h
        rw [hd0] at hxd
        exact absurd (Except.ok.inj hxd) hdd
      · exact ⟨x, h, hxd⟩

/-- Without a denying policy, the policy loop returns Permit exactly when
some policy permitted (or a permit was already recorded), else
NotApplicable; the status is the default `"OK"`. -/
theorem policiesLoop_no_deny (request : XACMLRequest) (ps : List Element) (ap : Bool)
    (hok : ∀ p ∈ ps, ∃ d, _evaluate_policy p request = Except.ok d)
    (hnd : ∀ p ∈ ps, _evaluate_policy p request ≠ Except.ok Decision.DENY) :
    policiesLoop request ps ap = Except.ok
      { decision :=
          if ap || ps.any (fun p => _evaluate_policy p request == Except.ok Decision.PERMIT)
          then Decision.PERMIT else Decision.NOT_APPLICABLE } := by
  induction ps generalizing ap with
  | nil => simp [policiesLoop]
  | cons p ps ih =>
    obtain ⟨d0, hd0⟩ := hok p (List.mem_cons_self ..)
    have hdd : d0 ≠ Decision.DENY := by
      intro h
      exact hnd p (List.mem_cons_self ..) (h ▸ hd0)
    have hloop : policiesLoop request (p :: ps) ap =
        policiesLoop request ps (ap || d0 == Decision.PERMIT) := by
      simp [policiesLoop, hd0, hdd]
    rw [hloop,
      ih _ (fun p' hp' => hok p' (List.mem_cons_of_mem _ hp'))
        (fun p' hp' => hnd p' (List.mem_cons_of_mem _ hp'))]
    simp [hd0, Bool.or_assoc]

/-! Section: claim theorems -/

/-- C8: any error raised during a single `evaluate` call is caught at the
top level and converted into a response with decision Indeterminate and a
descriptive status; a successful body is returned as-is, and `evaluate`
always returns a response (never propagates an error). -/
theorem C8_exceptions_to_indeterminate (policy_root : Element) (request : XACMLRequest) :
    (∀ e : String, evaluateE policy_root request = Except.error e →
      evaluate policy_root request =
        { decision := Decision.INDETERMINATE, status := "Error: " ++ e })
    ∧ (∀ r : XACMLResponse, evaluateE policy_root request = Except.ok r →
        evaluate policy_root request = r)
    ∧ (∃ r : XACMLResponse, evaluate policy_root request = r) := by
  refine ⟨fun e he => ?_, fun r hr => ?_, ⟨evaluate policy_root request, rfl⟩⟩
  · simp [evaluate, he]
  · simp [evaluate, hr]

/-- C8 witness: a policy whose rule target holds a `Match` with a
designator lacking a `Category` attribute makes the body raise; `evaluate`
returns Indeterminate with the error text rather than propagating. -/
theorem C8_exceptions_to_indeterminate_witness :
    evaluate
      (Element.mk "Root" [] none
        [Element.mk "Policy" [("PolicyId", "p")] none
          [Element.mk "Rule" [("RuleId", "r"), ("Effect", "Permit")] none
            [Element.mk "Target" [] none
              [Element.mk "AnyOf" [] none
                [Element.mk "AllOf" [] none
                  [Element.mk "Match" [] none
                    [Element.mk "AttributeValue" [] (some "x") [],
                     Element.mk "AttributeDesignator" [("AttributeId", "username")] none []]]]]]]])
      { subject := [("username", "alice")], resource := [], action := "list" } =
    { decision := Decision.INDETERMINATE,
      status := "Error: AttributeError: NoneType object has no attribute" } :=
  (C8_exceptions_to_indeterminate _ _).1
    "AttributeError: NoneType object has no attribute" rfl

/-- C2: enforcement is fail-closed.  `is_permitted` (and hence
`check_authorization`) is true exactly for a Permit decision, and the PEP
wrapper produces `denied` — never running the handler — whenever the
decision is anything other than Permit (Deny, NotApplicable and
Indeterminate alike), and runs the handler exactly when it is Permit. -/
theorem C2_fail_closed (policy_root : Element) :
    (∀ resp : XACMLResponse, resp.is_permitted = true ↔ resp.decision = Decision.PERMIT)
    ∧ (∀ username role action : String, ∀ resource_owner target_role : Option String,
        check_authorization policy_root username role action resource_owner target_role = true ↔
          (evaluate policy_root
            (ca_request username role action resource_owner target_role)).decision =
              Decision.PERMIT)
    ∧ (∀ (α : Type) (action : String) (rop trp : Option String) (ctx : PEPContext)
        (handler : Unit → α),
        ((evaluate policy_root
            (ca_request ctx.username ctx.role action
              (some (pep_resource_owner rop ctx.kwargs ctx.args_user ctx.username))
              (pep_target_role trp ctx.kwargs))).decision ≠ Decision.PERMIT →
          enforce_xacml policy_root action rop trp ctx handler = PEPOutcome.denied)
        ∧ ((evaluate policy_root
            (ca_request ctx.username ctx.role action
              (some (pep_resource_owner rop ctx.kwargs ctx.args_user ctx.username))
              (pep_target_role trp ctx.kwargs))).decision = Decision.PERMIT →
          enforce_xacml policy_root action rop trp ctx handler =
            PEPOutcome.executed (handler ()))) := by
  refine ⟨fun resp => ?_, fun u r a ro tr => ?_,
    fun α action rop trp ctx handler => ⟨fun hne => ?_, fun heq => ?_⟩⟩
  · simp [XACMLResponse.is_permitted]
  · simp [check_authorization, XACMLResponse.is_permitted]
  · simp [enforce_xacml, check_authorization, XACMLResponse.is_permitted, hne]
  · simp [enforce_xacml, check_authorization, XACMLResponse.is_permitted, heq]

/-- C2 witness: with an empty policy document the decision is
NotApplicable, `check_authorization` is false, and the PEP wrapper denies
without running the handler. -/
theorem C2_fail_closed_witness :
    (XACMLResponse.mk Decision.DENY "OK" [] []).is_permitted = false
    ∧ check_authorization (Element.mk "Root" [] none []) "alice" "user" "list" none none = false
    ∧ enforce_xacml (Element.mk "Root" [] none []) "list" none none
        (PEPContext.mk "alice" "user" [] none) (fun _ => (42 : Nat)) = PEPOutcome.denied := by
  refine ⟨rfl, ?_, ?_⟩
  · have h := (C2_fail_closed (Element.mk "Root" [] none [])).2.1
      "alice" "user" "list" none none
    rw [Bool.eq_false_iff]
    intro hc
    have := h.mp hc
    simp [evaluate, evaluateE, findallDescE, findallDescL] at this
  · exact ((C2_fail_closed (Element.mk "Root" [] none [])).2.2 Nat "list" none none
      (PEPContext.mk "alice" "user" [] none) (fun _ => (42 : Nat))).1 (by decide)

/-- C10: `check_authorization` builds the request with subject exactly
`{username, role}`; `resource-owner` / `target-role` appear in the
resource map only when the corresponding argument is neither `None` nor
empty, so Match resolution and `string-equal` resolution over a missing
attribute yield absent, not an empty string. -/
theorem C10_request_construction (username role action : String) (ro tr : Option String) :
    (ca_request username role action ro tr).subject = [("username", username), ("role", role)]
    ∧ ((ro = none ∨ ro = some "") →
        (ca_request username role action ro tr).resource.lookup "resource-owner" = none)
    ∧ ((tr = none ∨ tr = some "") →
        (ca_request username role action ro tr).resource.lookup "target-role" = none)
    ∧ (∀ v : String, ro = some v → v ≠ "" →
        (ca_request username role action ro tr).resource.lookup "resource-owner" = some v)
    ∧ (∀ v : String, tr = some v → v ≠ "" →
        (ca_request username role action ro tr).resource.lookup "target-role" = some v)
    ∧ ((ro = none ∨ ro = some "") → ∀ category : String,
        strContains (pyLower category) "subject" = false →
        strContains (pyLower category) "action" = false →
        strContains (pyLower category) "resource" = true →
        matchCategoryResolve category (some "resource-owner")
            (ca_request username role action ro tr) = none
          ∧ _get_attribute_value (some "resource-owner") (some category)
              (ca_request username role action ro tr) = Except.ok none) := by
  have hro_none : (ro = none ∨ ro = some "") →
      (ca_request username role action ro tr).resource.lookup "resource-owner" = none := by
    rintro (rfl | rfl) <;>
      · rcases tr with _ | w
        · rfl
        · by_cases hw : w = ""
          · subst hw; rfl
          · simp [ca_request, List.lookup, hw]
  refine ⟨rfl, hro_none, ?_, ?_, ?_, ?_⟩
  · rintro (rfl | rfl) <;>
      · rcases ro with _ | v
        · rfl
        · by_cases hv : v = ""
          · subst hv; rfl
          · simp [ca_request, List.lookup, hv]
  · rintro v rfl hv
    simp [ca_request, List.lookup, hv]
  · rintro v rfl hv
    rcases ro with _ | u
    · simp [ca_request, List.lookup, hv]
    · by_cases hu : u = ""
      · subst hu; simp [ca_request, List.lookup, hv]
      · simp [ca_request, List.lookup, hu, hv]
  · intro hro category hsub hact hres
    have hl := hro_none hro
    constructor
    · simp [matchCategoryResolve, hsub, hact, hres,
        XACMLRequest.get_resource_attribute, lookupOpt, hl]
    · simp [_get_attribute_value, hsub, hres,
        XACMLRequest.get_resource_attribute, lookupOpt, hl]

/-- C10 witness: a call with `resource_owner = some ""` and
`target_role = none` produces a resource map without either key, and the
standard XACML resource category resolves `resource-owner` to absent. -/
theorem C10_request_construction_witness :
    (ca_request "alice" "user" "list" (some "") none).subject =
      [("username", "alice"), ("role", "user")]
    ∧ (ca_request "alice" "user" "list" (some "") none).resource.lookup "resource-owner" = none
    ∧ matchCategoryResolve "urn:oasis:names:tc:xacml:3.0:attribute-category:resource"
        (some "resource-owner") (ca_request "alice" "user" "list" (some "") none) = none := by
  have h := C10_request_construction "alice" "user" "list" (some "") none
  refine ⟨h.1, h.2.1 (Or.inr rfl), ?_⟩
  exact (h.2.2.2.2.2 (Or.inr rfl) "urn:oasis:names:tc:xacml:3.0:attribute-category:resource"
    rfl rfl rfl).1

/-- C9 counterexample: with the declared parameter bound to the EMPTY
string, a query override `user=carol`, and authenticated user `alice`, the
claim's resolution (`specC9_resource_owner`) yields `"carol"`, but the
code keeps the empty binding (it is not `None`), so neither the query
value nor the username is used — and the built request then carries no
`resource-owner` at all. -/
theorem C9_counterexample :
    pep_resource_owner (some "target_user") [("target_user", "")] (some "carol") "alice" ≠
      specC9_resource_owner (some "target_user") [("target_user", "")] (some "carol") "alice"
    ∧ pep_resource_owner (some "target_user") [("target_user", "")] (some "carol") "alice" = ""
    ∧ specC9_resource_owner (some "target_user") [("target_user", "")] (some "carol") "alice" =
        "carol"
    ∧ (ca_request "alice" "user" "list"
        (some (pep_resource_owner (some "target_user") [("target_user", "")]
          (some "carol") "alice")) none).resource.lookup "resource-owner" = none := by
  exact ⟨by decide, rfl, rfl, rfl⟩

/-- C9 (amended): the PEP resolves `resource-owner` as the value bound to
the declared parameter whenever the key is present — even when that value
is empty — else the `user` query override, else the authenticated
username; an empty resolved value is then omitted from the authorization
request.  When the PEP is invoked with no explicit target user the
resolution is the authenticated username, which (when non-empty) appears
as the request's `resource-owner`. -/
theorem C9_resource_owner_amended (rop : Option String) (kwargs : List (String × String))
    (args_user : Option String) (username role action : String) (tr : Option String) :
    (∀ p : String, rop = some p → p ≠ "" → ∀ v : String, kwargs.lookup p = some v →
      pep_resource_owner rop kwargs args_user username = v)
    ∧ (∀ p : String, rop = some p → p ≠ "" → kwargs.lookup p = none →
        ∀ q : String, args_user = some q →
          pep_resource_owner rop kwargs args_user username = q)
    ∧ (∀ p : String, rop = some p → p ≠ "" → kwargs.lookup p = none → args_user = none →
        pep_resource_owner rop kwargs args_user username = username)
    ∧ ((rop = none ∨ rop = some "") →
        pep_resource_owner rop kwargs args_user username = username)
    ∧ (rop = none → username ≠ "" →
        (ca_request username role action
          (some (pep_resource_owner rop kwargs args_user username)) tr).resource.lookup
            "resource-owner" = some username) := by
  refine ⟨?_, ?_, ?_, ?_, ?_⟩
  · rintro p rfl hp v hv
    simp [pep_resource_owner, hp, hv]
  · rintro p rfl hp hv q rfl
    simp [pep_resource_owner, hp, hv]
  · rintro p rfl hp hv rfl
    simp [pep_resource_owner, hp, hv]
  · rintro (rfl | rfl)
    · rfl
    · rfl
  · rintro rfl hu
    rcases tr with _ | w
    · simp [pep_resource_owner, ca_request, List.lookup, hu]
    · by_cases hw : w = ""
      · subst hw; simp [pep_resource_owner, ca_request, List.lookup, hu]
      · simp [pep_resource_owner, ca_request, List.lookup, hu, hw]

/-- C9 amended witness: an undeclared parameter resolves to the
authenticated username and the request carries it as `resource-owner`. -/
theorem C9_resource_owner_amended_witness :
    pep_resource_owner none [] none "alice" = "alice"
    ∧ (ca_request "alice" "user" "list"
        (some (pep_resource_owner none [] none "alice")) none).resource.lookup
          "resource-owner" = some "alice" := by
  have h := C9_resource_owner_amended none [] none "alice" "user" "list" none
  exact ⟨h.2.2.2.1 (Or.inl rfl), h.2.2.2.2 rfl (by decide)⟩

/-- C5: a rule yields NotApplicable when its present target does not match
or its present condition is false; otherwise (target absent or matching,
condition absent or true) it yields its effect verbatim — Permit for
`Effect="Permit"`, Deny for `Effect="Deny"`. -/
theorem C5_evaluate_rule (rule : Element) (request : XACMLRequest) :
    (∀ t : Element, rule.findChild "Target" = some t →
      _match_target t request = Except.ok false →
      _evaluate_rule rule request = Except.ok Decision.NOT_APPLICABLE)
    ∧ ((∀ t ∈ rule.findChild "Target", _match_target t request = Except.ok true) →
        ((∀ c : Element, rule.findChild "Condition" = some c →
            _evaluate_condition c request = Except.ok false →
            _evaluate_rule rule request = Except.ok Decision.NOT_APPLICABLE)
          ∧ ((∀ c ∈ rule.findChild "Condition", _evaluate_condition c request = Except.ok true) →
              ((rule.get "Effect" = some "Permit" →
                  _evaluate_rule rule request = Except.ok Decision.PERMIT)
                ∧ (rule.get "Effect" = some "Deny" →
                  _evaluate_rule rule request = Except.ok Decision.DENY))))) := by
  have hcond : (∀ t ∈ rule.findChild "Target", _match_target t request = Except.ok true) →
      _evaluate_rule rule request = ruleCondStep rule request (rule.get "Effect") := by
    intro ht
    unfold _evaluate_rule
    cases h : rule.findChild "Target" with
    | none => rfl
    | some t =>
      have := ht t (by simp [h, Option.mem_def])
      simp [this]
  refine ⟨fun t ht hm => ?_, fun ht => ⟨fun c hc hcf => ?_, fun hcc => ⟨fun he => ?_, fun he => ?_⟩⟩⟩
  · unfold _evaluate_rule
    simp [ht, hm]
  · rw [hcond ht]
    unfold ruleCondStep
    simp [hc, hcf]
  · rw [hcond ht]
    unfold ruleCondStep
    cases h : rule.findChild "Condition" with
    | none => simp [ruleEffect, he]
    | some c =>
      have := hcc c (by simp [h, Option.mem_def])
      simp [this, ruleEffect, he]
  · rw [hcond ht]
    unfold ruleCondStep
    cases h : rule.findChild "Condition" with
    | none => simp [ruleEffect, he]
    | some c =>
      have := hcc c (by simp [h, Option.mem_def])
      simp [this, ruleEffect, he]

/-- C5 witness: a rule with no target, no condition and `Effect="Deny"`
evaluates to Deny. -/
theorem C5_evaluate_rule_witness :
    _evaluate_rule (Element.mk "Rule" [("RuleId", "r"), ("Effect", "Deny")] none [])
      { subject := [], resource := [], action := "list" } = Except.ok Decision.DENY :=
  ((C5_evaluate_rule (Element.mk "Rule" [("RuleId", "r"), ("Effect", "Deny")] none [])
      { subject := [], resource := [], action := "list" }).2
    (by simp [Element.findChild, Element.children, List.find?])).2
      (by simp [Element.findChild, Element.children, List.find?]) |>.2 rfl

/-- C4 counterexample: a `Match` whose `AttributeValue` element is empty
(text `None`) together with a designator for an attribute absent from the
request evaluates TRUE (`None == None` in the source), although resolution
yields no value — refuting the claim that the Match is then false. -/
theorem C4_counterexample :
    _evaluate_match
      (Element.mk "Match" [] none
        [Element.mk "AttributeValue" [] none [],
         Element.mk "AttributeDesignator"
           [("AttributeId", "foo"),
            ("Category", "urn:oasis:names:tc:xacml:1.0:subject-category:access-subject")]
           none []])
      { subject := [], resource := [], action := "list" } = Except.ok true
    ∧ matchCategoryResolve "urn:oasis:names:tc:xacml:1.0:subject-category:access-subject"
        (some "foo") { subject := [], resource := [], action := "list" } = none :=
  ⟨rfl, rfl⟩

/-- C4 (amended): a `Match` with an `AttributeValue` child and a designator
carrying a `Category` evaluates true iff the resolved value equals the
literal's text AS OPTIONALS: with a present literal string the comparison
is exact case-sensitive equality and an absent resolution is false, but
when the literal text is itself absent an absent resolution compares
equal and the Match is TRUE.  Resolution consults the subject map for
categories containing `subject`, the action string (only for attribute id
`action`) for categories containing `action`, the resource map for
categories containing `resource`, and is absent for every other category
(including environment). -/
theorem C4_evaluate_match_amended (m : Element) (request : XACMLRequest)
    (v d : Element) (category : String)
    (hv : m.findChild "AttributeValue" = some v)
    (hd : m.findChild "AttributeDesignator" = some d)
    (hc : d.get "Category" = some category) :
    (_evaluate_match m request = Except.ok true ↔
      matchCategoryResolve category (d.get "AttributeId") request = v.text)
    ∧ (∀ s : String, v.text = some s →
        (_evaluate_match m request = Except.ok true ↔
          matchCategoryResolve category (d.get "AttributeId") request = some s))
    ∧ (v.text = none →
        matchCategoryResolve category (d.get "AttributeId") request = none →
        _evaluate_match m request = Except.ok true)
    ∧ (∀ s : String, v.text = some s →
        matchCategoryResolve category (d.get "AttributeId") request = none →
        _evaluate_match m request = Except.ok false)
    ∧ (strContains (pyLower category) "subject" = true →
        matchCategoryResolve category (d.get "AttributeId") request =
          lookupOpt request.subject (d.get "AttributeId"))
    ∧ (strContains (pyLower category) "subject" = false →
        strContains (pyLower category) "action" = true →
        matchCategoryResolve category (d.get "AttributeId") request =
          (if d.get "AttributeId" == some "action" then some request.action else none))
    ∧ (strContains (pyLower category) "subject" = false →
        strContains (pyLower category) "action" = false →
        strContains (pyLower category) "resource" = true →
        matchCategoryResolve category (d.get "AttributeId") request =
          lookupOpt request.resource (d.get "AttributeId"))
    ∧ (strContains (pyLower category) "subject" = false →
        strContains (pyLower category) "action" = false →
        strContains (pyLower category) "resource" = false →
        matchCategoryResolve category (d.get "AttributeId") request = none) := by
  have hmain : _evaluate_match m request =
      Except.ok (matchCategoryResolve category (d.get "AttributeId") request == v.text) := by
    unfold _evaluate_match
    simp [hv, hd, hc]
  refine ⟨?_, fun s hs => ?_, fun hn hr => ?_, fun s hs hr => ?_,
    fun h1 => ?_, fun h1 h2 => ?_, fun h1 h2 h3 => ?_, fun h1 h2 h3 => ?_⟩
  · rw [hmain]
    simp
  · rw [hmain, hs]
    simp
  · rw [hmain, hn, hr]
    rfl
  · rw [hmain, hs, hr]
    rfl
  · simp [matchCategoryResolve, h1, XACMLRequest.get_subject_attribute]
  · simp [matchCategoryResolve, h1, h2]
  · simp [matchCategoryResolve, h1, h2, h3, XACMLRequest.get_resource_attribute]
  · simp [matchCategoryResolve, h1, h2, h3]

/-- C4 amended witness: a `Match` of literal `"user"` against the subject
role of a request whose role is `"user"` evaluates true. -/
theorem C4_evaluate_match_amended_witness :
    _evaluate_match
      (Element.mk "Match" [] none
        [Element.mk "AttributeValue" [] (some "user") [],
         Element.mk "AttributeDesignator"
           [("AttributeId", "role"),
            ("Category", "urn:oasis:names:tc:xacml:1.0:subject-category:access-subject")]
           none []])
      { subject := [("username", "alice"), ("role", "user")], resource := [],
        action := "list" } = Except.ok true :=
  ((C4_evaluate_match_amended
      (Element.mk "Match" [] none
        [Element.mk "AttributeValue" [] (some "user") [],
         Element.mk "AttributeDesignator"
           [("AttributeId", "role"),
            ("Category", "urn:oasis:names:tc:xacml:1.0:subject-category:access-subject")]
           none []])
      { subject := [("username", "alice"), ("role", "user")], resource := [],
        action := "list" }
      (Element.mk "AttributeValue" [] (some "user") [])
      (Element.mk "AttributeDesignator"
        [("AttributeId", "role"),
         ("Category", "urn:oasis:names:tc:xacml:1.0:subject-category:access-subject")]
        none [])
      "urn:oasis:names:tc:xacml:1.0:subject-category:access-subject"
      rfl rfl rfl).2.1 "user" rfl).mpr rfl

/-- The `string-equal` branch of `_evaluate_apply`: with at least two
designator descendants and error-free resolution of the first two, the
result is `val1 is not None and val1 == val2`. -/
theorem evaluate_apply_string_equal (request : XACMLRequest) (t : String)
    (ats : List (String × String)) (tx : Option String) (cs : List Element)
    (fid : String) (hfid : ats.lookup "FunctionId" = some fid)
    (hsc : strContains fid "string-equal" = true)
    (d0 d1 : Element) (rest : List Element)
    (hds : findallDescL "AttributeDesignator" cs = d0 :: d1 :: rest)
    (v1 v2 : Option String)
    (h1 : _get_attribute_value (d0.get "AttributeId") (d0.get "Category") request =
      Except.ok v1)
    (h2 : _get_attribute_value (d1.get "AttributeId") (d1.get "Category") request =
      Except.ok v2) :
    _evaluate_apply request (Element.mk t ats tx cs) =
      Except.ok (v1.isSome && v1 == v2) := by
  simp only [_evaluate_apply, hfid, hsc, if_true, hds, h1, h2]

/-- C6: an `Apply` whose function id contains `string-equal`, with at
least two `AttributeDesignator` descendants, evaluates true iff the first
two designators (in document order) both resolve and the resolved strings
are equal; in particular a condition comparing `subject.username` with
`resource.resource-owner` is true exactly when the two supplied strings
are equal (case-sensitively). -/
theorem C6_string_equal (request : XACMLRequest) (t : String)
    (ats : List (String × String)) (tx : Option String) (cs : List Element)
    (fid : String) (hfid : ats.lookup "FunctionId" = some fid)
    (hsc : strContains fid "string-equal" = true)
    (d0 d1 : Element) (rest : List Element)
    (hds : findallDescL "AttributeDesignator" cs = d0 :: d1 :: rest)
    (v1 v2 : Option String)
    (h1 : _get_attribute_value (d0.get "AttributeId") (d0.get "Category") request =
      Except.ok v1)
    (h2 : _get_attribute_value (d1.get "AttributeId") (d1.get "Category") request =
      Except.ok v2) :
    (_evaluate_apply request (Element.mk t ats tx cs) =
      Except.ok (v1.isSome && v1 == v2))
    ∧ (_evaluate_apply request (Element.mk t ats tx cs) = Except.ok true ↔
        ∃ s : String, v1 = some s ∧ v2 = some s)
    ∧ (∀ u ro : String,
        _evaluate_condition
          (Element.mk "Condition" [] none
            [Element.mk "Apply"
              [("FunctionId", "urn:oasis:names:tc:xacml:1.0:function:string-equal")] none
              [Element.mk "AttributeDesignator"
                [("AttributeId", "username"),
                 ("Category", "urn:oasis:names:tc:xacml:1.0:subject-category:access-subject")]
                none [],
               Element.mk "AttributeDesignator"
                [("AttributeId", "resource-owner"),
                 ("Category", "urn:oasis:names:tc:xacml:3.0:attribute-category:resource")]
                none []]])
          { subject := [("username", u)], resource := [("resource-owner", ro)],
            action := "any" } = Except.ok (u == ro)) := by
  have hmain := evaluate_apply_string_equal request t ats tx cs fid hfid hsc
    d0 d1 rest hds v1 v2 h1 h2
  refine ⟨hmain, ?_, ?_⟩
  · rw [hmain]
    constructor
    · intro h
      have hb := Except.ok.inj h
      cases v1 with
      | none => simp at hb
      | some s =>
        cases v2 with
        | none => simp at hb
        | some s2 =>
          simp only [Option.isSome_some, Bool.true_and, beq_iff_eq, Option.some.injEq] at hb
          exact ⟨s, rfl, by rw [hb]⟩
    · rintro ⟨s, rfl, rfl⟩
      simp
  · intro u ro
    have hc := evaluate_apply_string_equal
      { subject := [("username", u)], resource := [("resource-owner", ro)], action := "any" }
      "Apply" [("FunctionId", "urn:oasis:names:tc:xacml:1.0:function:string-equal")] none
      [Element.mk "AttributeDesignator"
        [("AttributeId", "username"),
         ("Category", "urn:oasis:names:tc:xacml:1.0:subject-category:access-subject")]
        none [],
       Element.mk "AttributeDesignator"
        [("AttributeId", "resource-owner"),
         ("Category", "urn:oasis:names:tc:xacml:3.0:attribute-category:resource")]
        none []]
      "urn:oasis:names:tc:xacml:1.0:function:string-equal" rfl rfl
      (Element.mk "AttributeDesignator"
        [("AttributeId", "username"),
         ("Category", "urn:oasis:names:tc:xacml:1.0:subject-category:access-subject")]
        none [])
      (Element.mk "AttributeDesignator"
        [("AttributeId", "resource-owner"),
         ("Category", "urn:oasis:names:tc:xacml:3.0:attribute-category:resource")]
        none [])
      [] rfl (some u) (some ro) rfl rfl
    show _evaluate_apply _ _ = _
    rw [hc]
    simp

/-- C6 witness: the username/resource-owner comparison on equal and on
unequal strings. -/
theorem C6_string_equal_witness :
    _evaluate_apply
      (XACMLRequest.mk [("username", "bob")] [("resource-owner", "bob")] "delete" [])
      (Element.mk "Apply"
        [("FunctionId", "urn:oasis:names:tc:xacml:1.0:function:string-equal")] none
        [Element.mk "AttributeDesignator"
          [("AttributeId", "username"),
           ("Category", "urn:oasis:names:tc:xacml:1.0:subject-category:access-subject")]
          none [],
         Element.mk "AttributeDesignator"
          [("AttributeId", "resource-owner"),
           ("Category", "urn:oasis:names:tc:xacml:3.0:attribute-category:resource")]
          none []]) = Except.ok true := by
  have h := C6_string_equal
    (XACMLRequest.mk [("username", "bob")] [("resource-owner", "bob")] "delete" [])
    "Apply" [("FunctionId", "urn:oasis:names:tc:xacml:1.0:function:string-equal")] none
    [Element.mk "AttributeDesignator"
      [("AttributeId", "username"),
       ("Category", "urn:oasis:names:tc:xacml:1.0:subject-category:access-subject")]
      none [],
     Element.mk "AttributeDesignator"
      [("AttributeId", "resource-owner"),
       ("Category", "urn:oasis:names:tc:xacml:3.0:attribute-category:resource")]
      none []]
    "urn:oasis:names:tc:xacml:1.0:function:string-equal" rfl rfl
    (Element.mk "AttributeDesignator"
      [("AttributeId", "username"),
       ("Category", "urn:oasis:names:tc:xacml:1.0:subject-category:access-subject")]
      none [])
    (Element.mk "AttributeDesignator"
      [("AttributeId", "resource-owner"),
       ("Category", "urn:oasis:names:tc:xacml:3.0:attribute-category:resource")]
      none [])
    [] rfl (some "bob") (some "bob") rfl rfl
  exact h.2.1.mpr ⟨"bob", rfl, rfl⟩

/-- The `function:not` branch negates the evaluation of the FIRST direct
`Apply` child (`apply.find('xacml:Apply')`), and is false when there is
none. -/
theorem apply_not_eq_find (request : XACMLRequest) (cs : List Element) :
    _apply_not request cs =
      (match cs.find? (fun c => c.tag == "Apply") with
       | none => Except.ok false
       | some c =>
         (match _evaluate_apply request c with
          | Except.error e => Except.error e
          | Except.ok b => Except.ok (!b))) := by
  induction cs with
  | nil => rfl
  | cons c cs ih =>
    cases hc : (c.tag == "Apply") with
    | true => simp [_apply_not, hc, List.find?_cons_of_pos]
    | false => simp [_apply_not, hc, List.find?_cons_of_neg, ih]

/-- An `or` whose child list holds no `Apply` element is false. -/
theorem apply_or_no_apply (request : XACMLRequest) (cs : List Element)
    (h : ∀ c ∈ cs, (c.tag == "Apply") = false) :
    _apply_or request cs = Except.ok false := by
  induction cs with
  | nil => rfl
  | cons c cs ih =>
    have hc := h c (List.mem_cons_self ..)
    simp [_apply_or, hc]
    exact ih (fun c' hc' => h c' (List.mem_cons_of_mem _ hc'))

/-- The `function:or` loop succeeds when every direct `Apply` child
evaluates without error, and is true exactly when some `Apply` child is
true. -/
theorem apply_or_ok (request : XACMLRequest) (cs : List Element)
    (hok : ∀ c ∈ cs, c.tag = "Apply" → ∃ b, _evaluate_apply request c = Except.ok b) :
    ∃ b, _apply_or request cs = Except.ok b ∧
      (b = true ↔ ∃ c ∈ cs, c.tag = "Apply" ∧ _evaluate_apply request c = Except.ok true) := by
  induction cs with
  | nil => exact ⟨false, rfl, by simp⟩
  | cons c cs ih =>
    obtain ⟨b, hb, hiff⟩ := ih (fun c' hc' ht => hok c' (List.mem_cons_of_mem _ hc') ht)
    cases hc : (c.tag == "Apply") with
    | false =>
      refine ⟨b, by simp [_apply_or, hc, hb], ?_⟩
      rw [hiff]
      constructor
      · rintro ⟨x, hx, hxt, hxe⟩
        exact ⟨x, List.mem_cons_of_mem _ hx, hxt, hxe⟩
      · rintro ⟨x, hx, hxt, hxe⟩
        rcases List.mem_cons.mp hx with h | h
        · subst h
          rw [hxt] at hc
          simp at hc
        · exact ⟨x, h, hxt, hxe⟩
    | true =>
      obtain ⟨b0, hb0⟩ := hok c (List.mem_cons_self ..) (by simpa using hc)
      cases b0 with
      | true =>
        refine ⟨true, by simp [_apply_or, hc, hb0], ?_⟩
        exact iff_of_true rfl ⟨c, List.mem_cons_self .., by simpa using hc, hb0⟩
      | false =>
        refine ⟨b, by simp [_apply_or, hc, hb0, hb], ?_⟩
        rw [hiff]
        constructor
        · rintro ⟨x, hx, hxt, hxe⟩
          exact ⟨x, List.mem_cons_of_mem _ hx, hxt, hxe⟩
        · rintro ⟨x, hx, hxt, hxe⟩
          rcases List.mem_cons.mp hx with h | h
          · subst h
            rw [hb0] at hxe
            exact absurd (Except.ok.inj hxe) Bool.false_ne_true
          · exact ⟨x, h, hxt, hxe⟩

/-- Dispatch: with `string-equal` absent and `function:not` present, the
node evaluates its `not` branch. -/
theorem evaluate_apply_not_branch (request : XACMLRequest) (t : String)
    (ats : List (String × String)) (tx : Option String) (cs : List Element)
    (fid : String) (hfid : ats.lookup "FunctionId" = some fid)
    (hsc : strContains fid "string-equal" = false)
    (hnot : strContains fid "function:not" = true) :
    _evaluate_apply request (Element.mk t ats tx cs) = _apply_not request cs := by
  simp only [_evaluate_apply, hfid, hsc, hnot]
  rfl

/-- Dispatch: with `string-equal` and `function:not` absent and
`function:or` present, the node evaluates its `or` branch. -/
theorem evaluate_apply_or_branch (request : XACMLRequest) (t : String)
    (ats : List (String × String)) (tx : Option String) (cs : List Element)
    (fid : String) (hfid : ats.lookup "FunctionId" = some fid)
    (hsc : strContains fid "string-equal" = false)
    (hnot : strContains fid "function:not" = false)
    (hor : strContains fid "function:or" = true) :
    _evaluate_apply request (Element.mk t ats tx cs) = _apply_or request cs := by
  simp only [_evaluate_apply, hfid, hsc, hnot, hor]
  rfl

/-- Dispatch: a function id containing none of the three substrings
evaluates to false (unsupported functions fail closed). -/
theorem evaluate_apply_unknown (request : XACMLRequest) (t : String)
    (ats : List (String × String)) (tx : Option String) (cs : List Element)
    (fid : String) (hfid : ats.lookup "FunctionId" = some fid)
    (hsc : strContains fid "string-equal" = false)
    (hnot : strContains fid "function:not" = false)
    (hor : strContains fid "function:or" = false) :
    _evaluate_apply request (Element.mk t ats tx cs) = Except.ok false := by
  simp only [_evaluate_apply, hfid, hsc, hnot, hor]
  rfl

/-- C7 counterexample: the function id `"function:not-string-equal"`
contains `"function:not"`, and its single nested `Apply` child (an
unsupported function) evaluates false, so the claim demands `not(false) =
true`; but the source tests `"string-equal"` FIRST, and this id also
contains `"string-equal"`, so the string-equal branch runs, finds no
designators, and the node evaluates false. -/
theorem C7_counterexample :
    strContains "function:not-string-equal" "function:not" = true
    ∧ _evaluate_apply (XACMLRequest.mk [] [] "a" [])
        (Element.mk "Apply" [("FunctionId", "nothing")] none []) = Except.ok false
    ∧ _evaluate_apply (XACMLRequest.mk [] [] "a" [])
        (Element.mk "Apply" [("FunctionId", "function:not-string-equal")] none
          [Element.mk "Apply" [("FunctionId", "nothing")] none []]) = Except.ok false :=
  ⟨rfl, rfl, rfl⟩

/-- C7 (amended): `_evaluate_apply` dispatches on the function id by
substring tests IN ORDER — `string-equal`, then `function:not`, then
`function:or` — so the later behaviours apply only when the earlier
substrings are absent.  When `string-equal` is absent and `function:not`
present, the node is the negation of its first direct `Apply` child
(false when there is none); when only `function:or` applies, the node is
true iff at least one direct `Apply` child is true (false with zero
children); with none of the three substrings the node is false. -/
theorem C7_apply_dispatch_amended (request : XACMLRequest) (t : String)
    (ats : List (String × String)) (tx : Option String) (cs : List Element)
    (fid : String) (hfid : ats.lookup "FunctionId" = some fid) :
    (strContains fid "string-equal" = false → strContains fid "function:not" = true →
      ((cs.find? (fun c => c.tag == "Apply") = none →
          _evaluate_apply request (Element.mk t ats tx cs) = Except.ok false)
        ∧ (∀ c : Element, cs.find? (fun c => c.tag == "Apply") = some c →
            ∀ b : Bool, _evaluate_apply request c = Except.ok b →
              _evaluate_apply request (Element.mk t ats tx cs) = Except.ok (!b))))
    ∧ (strContains fid "string-equal" = false → strContains fid "function:not" = false →
        strContains fid "function:or" = true →
        (((∀ c ∈ cs, (c.tag == "Apply") = false) →
            _evaluate_apply request (Element.mk t ats tx cs) = Except.ok false)
          ∧ ((∀ c ∈ cs, c.tag = "Apply" → ∃ b, _evaluate_apply request c = Except.ok b) →
              (_evaluate_apply request (Element.mk t ats tx cs) = Except.ok true ↔
                ∃ c ∈ cs, c.tag = "Apply" ∧ _evaluate_apply request c = Except.ok true))))
    ∧ (strContains fid "string-equal" = false → strContains fid "function:not" = false →
        strContains fid "function:or" = false →
        _evaluate_apply request (Element.mk t ats tx cs) = Except.ok false) := by
  refine ⟨fun hsc hnot => ⟨fun hfind => ?_, fun c hfind b hc => ?_⟩,
    fun hsc hnot hor => ⟨fun hnone => ?_, fun hok => ?_⟩, fun hsc hnot hor => ?_⟩
  · rw [evaluate_apply_not_branch request t ats tx cs fid hfid hsc hnot,
      apply_not_eq_find, hfind]
  · rw [evaluate_apply_not_branch request t ats tx cs fid hfid hsc hnot,
      apply_not_eq_find, hfind]
    simp [hc]
  · rw [evaluate_apply_or_branch request t ats tx cs fid hfid hsc hnot hor]
    exact apply_or_no_apply request cs hnone
  · rw [evaluate_apply_or_branch request t ats tx cs fid hfid hsc hnot hor]
    obtain ⟨b, hb, hiff⟩ := apply_or_ok request cs hok
    rw [hb]
    constructor
    · intro h
      exact hiff.mp (Except.ok.inj h)
    · intro h
      rw [hiff.mpr h]
  · exact evaluate_apply_unknown request t ats tx cs fid hfid hsc hnot hor

/-- C7 amended witness: `not(or())` — an `or` with zero children is false
and its negation is true. -/
theorem C7_apply_dispatch_amended_witness :
    _evaluate_apply (XACMLRequest.mk [] [] "a" [])
      (Element.mk "Apply" [("FunctionId", "urn:oasis:names:tc:xacml:1.0:function:not")] none
        [Element.mk "Apply" [("FunctionId", "urn:oasis:names:tc:xacml:1.0:function:or")]
          none []]) = Except.ok true :=
  ((C7_apply_dispatch_amended (XACMLRequest.mk [] [] "a" []) "Apply"
      [("FunctionId", "urn:oasis:names:tc:xacml:1.0:function:not")] none
      [Element.mk "Apply" [("FunctionId", "urn:oasis:names:tc:xacml:1.0:function:or")] none []]
      "urn:oasis:names:tc:xacml:1.0:function:not" rfl).1 rfl rfl).2
    (Element.mk "Apply" [("FunctionId", "urn:oasis:names:tc:xacml:1.0:function:or")] none [])
    rfl false rfl

/-- A policy whose target is absent or matches proceeds to its rules. -/
theorem evaluate_policy_target_ok (policy : Element) (request : XACMLRequest)
    (ht : ∀ t ∈ policy.findChild "Target", _match_target t request = Except.ok true) :
    _evaluate_policy policy request = policyRules policy request := by
  unfold _evaluate_policy
  cases h : policy.findChild "Target" with
  | none => rfl
  | some t =>
    have := ht t (by simp [h, Option.mem_def])
    simp [this]

/-- C1: deny-overrides at both levels.  Across policies: with every policy
evaluating without error, any Deny forces the overall decision to Deny
(and a denying policy short-circuits the loop no matter what follows);
with no Deny, the decision is Permit when some policy permits, else
NotApplicable (in particular for zero policies).  Within a policy whose
target is absent or matches: zero rules give NotApplicable; with rules
evaluating without error, any Deny gives Deny (a denying rule
short-circuits the rule loop), else Permit when some rule permits, else
NotApplicable. -/
theorem C1_deny_overrides (root : Element) (request : XACMLRequest)
    (hok : ∀ p ∈ findallDescE "Policy" root, ∃ d, _evaluate_policy p request = Except.ok d) :
    ((∃ p ∈ findallDescE "Policy" root,
        _evaluate_policy p request = Except.ok Decision.DENY) →
      (evaluate root request).decision = Decision.DENY)
    ∧ ((∀ p ∈ findallDescE "Policy" root,
          _evaluate_policy p request ≠ Except.ok Decision.DENY) →
        (((∃ p ∈ findallDescE "Policy" root,
            _evaluate_policy p request = Except.ok Decision.PERMIT) →
          (evaluate root request).decision = Decision.PERMIT)
        ∧ ((∀ p ∈ findallDescE "Policy" root,
            _evaluate_policy p request ≠ Except.ok Decision.PERMIT) →
          (evaluate root request).decision = Decision.NOT_APPLICABLE)))
    ∧ (∀ (p : Element) (ps : List Element) (ap : Bool),
        _evaluate_policy p request = Except.ok Decision.DENY →
        policiesLoop request (p :: ps) ap =
          Except.ok { decision := Decision.DENY, status := "Access denied by policy" })
    ∧ (∀ (r : Element) (rs : List Element) (ap : Bool),
        _evaluate_rule r request = Except.ok Decision.DENY →
        rulesLoop request (r :: rs) ap = Except.ok Decision.DENY)
    ∧ (∀ policy : Element,
        (∀ t ∈ policy.findChild "Target", _match_target t request = Except.ok true) →
        ((findallDescE "Rule" policy = [] →
            _evaluate_policy policy request = Except.ok Decision.NOT_APPLICABLE)
          ∧ ((∀ r ∈ findallDescE "Rule" policy, ∃ d, _evaluate_rule r request = Except.ok d) →
              (∃ r ∈ findallDescE "Rule" policy,
                _evaluate_rule r request = Except.ok Decision.DENY) →
              _evaluate_policy policy request = Except.ok Decision.DENY)
          ∧ ((∀ r ∈ findallDescE "Rule" policy, ∃ d, _evaluate_rule r request = Except.ok d) →
              (∀ r ∈ findallDescE "Rule" policy,
                _evaluate_rule r request ≠ Except.ok Decision.DENY) →
              ((∃ r ∈ findallDescE "Rule" policy,
                  _evaluate_rule r request = Except.ok Decision.PERMIT) →
                _evaluate_policy policy request = Except.ok Decision.PERMIT)
              ∧ ((∀ r ∈ findallDescE "Rule" policy,
                  _evaluate_rule r request ≠ Except.ok Decision.PERMIT) →
                _evaluate_policy policy request = Except.ok Decision.NOT_APPLICABLE)))) := by
  refine ⟨?_, ?_, policiesLoop_deny_head request, rulesLoop_deny_head request, ?_⟩
  · intro hden
    have hne : findallDescE "Policy" root ≠ [] := by
      obtain ⟨p, hp, _⟩ := hden
      exact List.ne_nil_of_mem hp
    have hloop := policiesLoop_deny request _ false hok hden
    simp only [evaluate, evaluateE]
    cases hP : findallDescE "Policy" root with
    | nil => exact absurd hP hne
    | cons p ps =>
      rw [hP] at hloop
      simp [hloop]
  · intro hnd
    have hloop := policiesLoop_no_deny request _ false hok hnd
    constructor
    · intro hperm
      have hne : findallDescE "Policy" root ≠ [] := by
        obtain ⟨p, hp, _⟩ := hperm
        exact List.ne_nil_of_mem hp
      have hany : (findallDescE "Policy" root).any
          (fun p => _evaluate_policy p request == Except.ok Decision.PERMIT) = true := by
        rw [List.any_eq_true]
        obtain ⟨p, hp, hpe⟩ := hperm
        exact ⟨p, hp, by simp [hpe]⟩
      rw [hany] at hloop
      simp only [evaluate, evaluateE]
      cases hP : findallDescE "Policy" root with
      | nil => exact absurd hP hne
      | cons p ps =>
        rw [hP] at hloop
        simp [hloop]
    · intro hnp
      have hany : (findallDescE "Policy" root).any
          (fun p => _evaluate_policy p request == Except.ok Decision.PERMIT) = false := by
        rw [Bool.eq_false_iff]
        intro hc
        rw [List.any_eq_true] at hc
        obtain ⟨p, hp, hpe⟩ := hc
        exact hnp p hp (by simpa using hpe)
      rw [hany] at hloop
      simp only [evaluate, evaluateE]
      cases hP : findallDescE "Policy" root with
      | nil => rfl
      | cons p ps =>
        rw [hP] at hloop
        simp [hloop]
  · intro policy ht
    have hstep := evaluate_policy_target_ok policy request ht
    refine ⟨fun hrules => ?_, fun hrok hrden => ?_, fun hrok hrnd => ⟨fun hrperm => ?_, fun hrnp => ?_⟩⟩
    · rw [hstep]
      unfold policyRules
      rw [hrules]
      rfl
    · rw [hstep]
      unfold policyRules
      have hne : findallDescE "Rule" policy ≠ [] := by
        obtain ⟨r, hr, _⟩ := hrden
        exact List.ne_nil_of_mem hr
      have hloop := rulesLoop_deny request _ false hrok hrden
      cases hR : findallDescE "Rule" policy with
      | nil => exact absurd hR hne
      | cons r rs =>
        rw [hR] at hloop
        simp [hloop]
    · rw [hstep]
      unfold policyRules
      have hne : findallDescE "Rule" policy ≠ [] := by
        obtain ⟨r, hr, _⟩ := hrperm
        exact List.ne_nil_of_mem hr
      have hloop := rulesLoop_no_deny request _ false hrok hrnd
      have hany : (findallDescE "Rule" policy).any
          (fun r => _evaluate_rule r request == Except.ok Decision.PERMIT) = true := by
        rw [List.any_eq_true]
        obtain ⟨r, hr, hre⟩ := hrperm
        exact ⟨r, hr, by simp [hre]⟩
      rw [hany] at hloop
      cases hR : findallDescE "Rule" policy with
      | nil => exact absurd hR hne
      | cons r rs =>
        rw [hR] at hloop
        simp [hloop]
    · rw [hstep]
      unfold policyRules
      have hloop := rulesLoop_no_deny request _ false hrok hrnd
      have hany : (findallDescE "Rule" policy).any
          (fun r => _evaluate_rule r request == Except.ok Decision.PERMIT) = false := by
        rw [Bool.eq_false_iff]
        intro hc
        rw [List.any_eq_true] at hc
        obtain ⟨r, hr, hre⟩ := hc
        exact hrnp r hr (by simpa using hre)
      rw [hany] at hloop
      cases hR : findallDescE "Rule" policy with
      | nil => simp
      | cons r rs =>
        rw [hR] at hloop
        simp [hloop]

/-- An `Except`-valued loop equals `ok true` exactly when its boolean
characterization holds. -/
theorem ok_true_iff {f : Except String Bool} {P : Prop}
    (h : ∃ b, f = Except.ok b ∧ (b = true ↔ P)) : (f = Except.ok true ↔ P) := by
  obtain ⟨b, hb, hiff⟩ := h
  rw [hb]
  constructor
  · intro h2
    exact hiff.mp (Except.ok.inj h2)
  · intro h2
    rw [hiff.mpr h2]

/-- C3: target matching is a wildcard on a target with no children, and
otherwise succeeds exactly when SOME `AllOf` group inside ANY `AnyOf`
group has all of its `Match` predicates true — the looser
exists-one-matching-group semantics, not one requiring every `AnyOf`
group to match. -/
theorem C3_match_target (target : Element) (request : XACMLRequest)
    (hok : ∀ a ∈ target.findallChild "AnyOf", ∀ ao ∈ a.findallChild "AllOf",
      ∀ m ∈ ao.findallChild "Match", ∃ b, _evaluate_match m request = Except.ok b) :
    _match_target target request = Except.ok true ↔
      (target.children = [] ∨
        ∃ a ∈ target.findallChild "AnyOf", ∃ ao ∈ a.findallChild "AllOf",
          ∀ m ∈ ao.findallChild "Match", _evaluate_match m request = Except.ok true) := by
  have hok2 : ∀ a ∈ target.findallChild "AnyOf", ∀ ao ∈ a.findallChild "AllOf",
      ∃ b, _match_all_of ao request = Except.ok b := fun a ha ao hao =>
    match match_all_of_loop_ok request (ao.findallChild "Match") (hok a ha ao hao) with
    | ⟨b, hb, _⟩ => ⟨b, hb⟩
  have hok1 : ∀ a ∈ target.findallChild "AnyOf",
      ∃ b, _allof_loop request (a.findallChild "AllOf") = Except.ok b := fun a ha =>
    match allof_loop_ok request (a.findallChild "AllOf") (hok2 a ha) with
    | ⟨b, hb, _⟩ => ⟨b, hb⟩
  by_cases hc : target.children = []
  · have hone : _match_target target request = Except.ok true := by
      unfold _match_target
      simp [hc]
    rw [hone]
    exact iff_of_true rfl (Or.inl hc)
  · have hlen : (target.children.length == 0) = false := by
      simp [hc]
    have hstep : _match_target target request =
        _anyof_loop request (target.findallChild "AnyOf") := by
      unfold _match_target
      rw [hlen]
      rfl
    rw [hstep, or_iff_right hc]
    apply ok_true_iff
    obtain ⟨B, hB, hBiff⟩ := anyof_loop_ok request _ hok1
    refine ⟨B, hB, hBiff.trans ⟨?_, ?_⟩⟩
    · rintro ⟨an, han, htrue⟩
      obtain ⟨ao, hao, h2⟩ := (ok_true_iff (allof_loop_ok request _ (hok2 an han))).mp htrue
      exact ⟨an, han, ao, hao,
        (ok_true_iff (match_all_of_loop_ok request _ (hok an han ao hao))).mp h2⟩
    · rintro ⟨an, han, ao, hao, hall⟩
      refine ⟨an, han, ?_⟩
      exact (ok_true_iff (allof_loop_ok request _ (hok2 an han))).mpr
        ⟨ao, hao, (ok_true_iff (match_all_of_loop_ok request _ (hok an han ao hao))).mpr hall⟩

/-- C3 witness: a one-group target matches a request whose subject role is
`"user"`. -/
theorem C3_match_target_witness :
    _match_target w3Target w1Request = Except.ok true := by
  have hok : ∀ a ∈ w3Target.findallChild "AnyOf", ∀ ao ∈ a.findallChild "AllOf",
      ∀ m ∈ ao.findallChild "Match", ∃ b, _evaluate_match m w1Request = Except.ok b := by
    intro a ha ao hao m hm
    rw [show w3Target.findallChild "AnyOf" = [w3AnyOf] from rfl, List.mem_singleton] at ha
    subst ha
    rw [show w3AnyOf.findallChild "AllOf" = [w3AllOf] from rfl, List.mem_singleton] at hao
    subst hao
    rw [show w3AllOf.findallChild "Match" = [w3Match] from rfl, List.mem_singleton] at hm
    subst hm
    exact ⟨true, rfl⟩
  refine (C3_match_target w3Target w1Request hok).mpr (Or.inr ⟨w3AnyOf, ?_, w3AllOf, ?_, ?_⟩)
  · rw [show w3Target.findallChild "AnyOf" = [w3AnyOf] from rfl]
    exact List.mem_singleton.mpr rfl
  · rw [show w3AnyOf.findallChild "AllOf" = [w3AllOf] from rfl]
    exact List.mem_singleton.mpr rfl
  · intro m hm
    rw [show w3AllOf.findallChild "Match" = [w3Match] from rfl, List.mem_singleton] at hm
    subst hm
    rfl

/-- C1 witness: deny-overrides at the rule level — a policy holding a
permit rule and a deny rule yields overall Deny. -/
theorem C1_deny_overrides_witness :
    (evaluate w1Root w1Request).decision = Decision.DENY :=
  (C1_deny_overrides w1Root w1Request
    (fun p hp => by
      rw [show findallDescE "Policy" w1Root = [w1Policy] from rfl,
        List.mem_singleton] at hp
      subst hp
      exact ⟨Decision.DENY, rfl⟩)).1
    ⟨w1Policy, by
      rw [show findallDescE "Policy" w1Root = [w1Policy] from rfl]
      exact List.mem_singleton.mpr rfl, rfl⟩
